import Mathlib

/-!
Shallow embedding of the HMC transition kernel of the cosim repository.

The file `src/cosim/hmc.py` supplies the `HMCInfo` record, the kernel
builder and the `generate` function; they are embedded directly from the
source.  The helper modules that `hmc.py` imports
(`cosim.inference.integrators`, `cosim.inference.proposal`,
`cosim.inference.trajectory`, `cosim.inference.base`) and the coupled
kernel (`cosim.coupled.hmc`) are not part of the available sources, so
the bodies of those functions are modelled from the specification and
marked as such in their doc comments.

Numeric scalars that the Python code represents as IEEE floating-point
values are embedded as the type `FVal`: a rational payload extended with
the two infinities and a not-a-number element, with the arithmetic cases
the kernel exercises.  The floating-point exponential is embedded as an
explicit function parameter, together with the hypotheses
(non-negativity, monotonicity) that the theorems about the acceptance
probability need.  Randomness is explicit: a transition receives a key,
splits it deterministically, and the momentum draw and the uniform
acceptance draw are pure functions of the sub-keys.
-/

/-- Extended scalar value mirroring an IEEE floating-point number:
a finite rational, positive infinity, negative infinity, or NaN. -/
inductive FVal where
  | fin (x : ℚ)
  | inf
  | ninf
  | nan
deriving DecidableEq

/-- Addition on extended scalars, with the IEEE conventions for
infinities and NaN propagation. -/
def fadd : FVal → FVal → FVal
  | FVal.nan, _ => FVal.nan
  | _, FVal.nan => FVal.nan
  | FVal.fin a, FVal.fin b => FVal.fin (a + b)
  | FVal.fin _, FVal.inf => FVal.inf
  | FVal.fin _, FVal.ninf => FVal.ninf
  | FVal.inf, FVal.fin _ => FVal.inf
  | FVal.inf, FVal.inf => FVal.inf
  | FVal.inf, FVal.ninf => FVal.nan
  | FVal.ninf, FVal.fin _ => FVal.ninf
  | FVal.ninf, FVal.inf => FVal.nan
  | FVal.ninf, FVal.ninf => FVal.ninf

/-- Negation on extended scalars. -/
def fneg : FVal → FVal
  | FVal.fin a => FVal.fin (-a)
  | FVal.inf => FVal.ninf
  | FVal.ninf => FVal.inf
  | FVal.nan => FVal.nan

/-- Subtraction on extended scalars, defined as addition of the negation
(the IEEE cases coincide). -/
def fsub (a b : FVal) : FVal :=
  fadd a (fneg b)

/-- Whether an extended scalar is a finite number. -/
def FVal.isFinite : FVal → Bool
  | FVal.fin _ => true
  | _ => false

/-- State of the symplectic integrator, embedded from the spec's data
model for `cosim.inference.integrators.IntegratorState`:
position, momentum, potential energy and its gradient. -/
structure IntegratorState (P M : Type) where
  position : P
  momentum : M
  potential_energy : FVal
  potential_energy_gradient : P

/-- Modelled from the spec: `cosim.inference.integrators.flip_momentum`
(module not under src/).  Negates the momentum of a state, leaving the
position, the potential energy and its gradient unchanged. -/
def flip_momentum {P M : Type} [Neg M] (state : IntegratorState P M) :
    IntegratorState P M :=
  ⟨state.position, -state.momentum, state.potential_energy,
    state.potential_energy_gradient⟩

/-- Proposal record, from the spec's data model for
`cosim.inference.proposal.Proposal`: a state, its total energy, and an
acceptance weight. -/
structure Proposal (P M : Type) where
  state : IntegratorState P M
  energy : FVal
  weight : FVal

/-- Result of comparing two proposals, from the spec's data model for
`SampledProposal`. -/
structure SampledProposal (P M : Type) where
  state : IntegratorState P M
  acceptance_probability : ℚ
  is_accepted : Bool

/-- Modelled from the spec: `cosim.inference.trajectory.static_integration`
(module not under src/).  Applies the one-step integrator, at the fixed
step size, exactly `num_steps` times; no early termination. -/
def static_integration {P M : Type}
    (step_fn : IntegratorState P M → ℚ → IntegratorState P M)
    (step_size : ℚ) (num_steps : ℕ)
    (initial_state : IntegratorState P M) : IntegratorState P M :=
  (fun s => step_fn s step_size)^[num_steps] initial_state

/-- Modelled from the spec: `init_proposal` of
`cosim.inference.proposal.proposal_generator` (module not under src/).
Builds the proposal for an initial state, with energy the sum of the
potential energy and the kinetic energy of the momentum, and weight 0. -/
def init_proposal {P M : Type} (kinetic_energy : M → FVal)
    (state : IntegratorState P M) : Proposal P M :=
  ⟨state, fadd state.potential_energy (kinetic_energy state.momentum),
    FVal.fin 0⟩

/-- Modelled from the spec: the divergence test of `generate_proposal`.
Diverging iff the energy difference `end_energy - initial_energy` is not
finite or exceeds the divergence threshold. -/
def is_diverging (divergence_threshold : ℚ) (delta_energy : FVal) : Bool :=
  match delta_energy with
  | FVal.fin d => decide (divergence_threshold < d)
  | _ => true

/-- Modelled from the spec: `generate_proposal` of
`cosim.inference.proposal.proposal_generator` (module not under src/).
Computes the end-state energy the same way as `init_proposal`, flags
divergence on the energy difference, and records the acceptance weight
`initial_energy - end_energy`. -/
def generate_proposal {P M : Type} (kinetic_energy : M → FVal)
    (divergence_threshold : ℚ) (initial_energy : FVal)
    (end_state : IntegratorState P M) : Proposal P M × Bool :=
  let end_energy := fadd end_state.potential_energy
    (kinetic_energy end_state.momentum)
  (⟨end_state, end_energy, fsub initial_energy end_energy⟩,
    is_diverging divergence_threshold (fsub end_energy initial_energy))

/-- Modelled from the spec: the acceptance probability of
`cosim.inference.proposal.static_binomial_sampling` (module not under
src/): `min 1 (exp (initial_energy - new_energy))`, and 0 whenever the
new energy is infinite or NaN.  `expFn` stands for the floating-point
exponential. -/
def acceptance_prob (expFn : ℚ → ℚ) (initial_energy new_energy : FVal) : ℚ :=
  if new_energy.isFinite then
    match fsub initial_energy new_energy with
    | FVal.fin d => min 1 (expFn d)
    | FVal.inf => 1
    | FVal.ninf => 0
    | FVal.nan => 0
  else 0

/-- Modelled from the spec:
`cosim.inference.proposal.static_binomial_sampling` (module not under
src/).  Accepts iff the uniform draw is below the acceptance
probability; on accept returns the new proposal's state, otherwise the
initial proposal's state.  The uniform draw in `[0,1)` derived from the
key is passed directly as `rng_key`. -/
def static_binomial_sampling {P M : Type} (expFn : ℚ → ℚ) (rng_key : ℚ)
    (initial_proposal new_proposal : Proposal P M) :
    SampledProposal P M × Bool × ℚ :=
  let p := acceptance_prob expFn initial_proposal.energy new_proposal.energy
  if rng_key < p then
    (⟨new_proposal.state, p, true⟩, true, p)
  else
    (⟨initial_proposal.state, p, false⟩, false, p)

/-- Diagnostic record, embedded from `HMCInfo` of src/cosim/hmc.py
(lines 20-54): the momentum that was sampled, the acceptance
probability, the acceptance flag, the divergence flag, the energy of the
proposal, the proposal itself, and the number of integration steps.
The Python annotation of the `proposal` field says `IntegratorState`,
but the value stored by `generate` (line 172) is the `Proposal` record,
so the field is typed accordingly. -/
structure HMCInfo (P M : Type) where
  momentum : M
  acceptance_probability : ℚ
  is_accepted : Bool
  is_divergent : Bool
  energy : FVal
  proposal : Proposal P M
  num_integration_steps : ℕ

/-- Embedded from `generate` of src/cosim/hmc.py (lines 149-176):
build the trajectory, flip the momentum of its endpoint, form the
initial proposal, generate the end proposal with its divergence flag,
run the acceptance sampler, and return the sampled state together with
the `HMCInfo` record. -/
def generate {P M : Type} [Neg M] (rng_key : ℚ)
    (state : IntegratorState P M)
    (build_trajectory : IntegratorState P M → IntegratorState P M)
    (init_proposal : IntegratorState P M → Proposal P M)
    (generate_proposal : FVal → IntegratorState P M → Proposal P M × Bool)
    (sample_proposal :
      ℚ → Proposal P M → Proposal P M → SampledProposal P M × Bool × ℚ)
    (num_integration_steps : ℕ) : IntegratorState P M × HMCInfo P M :=
  let end_state := flip_momentum (build_trajectory state)
  let prop := init_proposal state
  let pr := generate_proposal prop.energy end_state
  let new_proposal := pr.1
  let is_divergent := pr.2
  let sp := sample_proposal rng_key prop new_proposal
  let info : HMCInfo P M :=
    ⟨state.momentum, sp.2.2, sp.2.1, is_divergent, new_proposal.energy,
      new_proposal, num_integration_steps⟩
  (sp.1.state, info)

/-- Embedded from `hmc_proposal` of src/cosim/hmc.py (lines 100-146):
wires `generate` to the static trajectory builder, the proposal
generator and the static binomial sampler. -/
def hmc_proposal {P M : Type} [Neg M] (expFn : ℚ → ℚ)
    (integrator : IntegratorState P M → ℚ → IntegratorState P M)
    (kinetic_energy : M → FVal) (step_size : ℚ)
    (num_integration_steps : ℕ) (divergence_threshold : ℚ)
    (rng_key : ℚ) (state : IntegratorState P M) :
    IntegratorState P M × HMCInfo P M :=
  generate rng_key state
    (static_integration integrator step_size num_integration_steps)
    (init_proposal kinetic_energy)
    (generate_proposal kinetic_energy divergence_threshold)
    (static_binomial_sampling expFn)
    num_integration_steps

/-- Chain state outside a trajectory, from the spec's data model:
position, potential energy, and its gradient. -/
structure HMCState (P : Type) where
  position : P
  potential_energy : FVal
  potential_energy_gradient : P

/-- Modelled from the spec: the transition built by
`cosim.inference.base.hmc` (module not under src/), which the `kernel`
builder of src/cosim/hmc.py returns.  Splits the key, draws the
momentum from the first sub-key, attaches it to the current position to
form the initial `IntegratorState`, runs the proposal machinery with the
uniform acceptance draw taken from the second sub-key, and returns the
new chain state together with the `HMCInfo` record. -/
def hmc_kernel {P M K : Type} [Neg M]
    (split : K → K × K) (uniform : K → ℚ)
    (momentum_generator : K → P → M) (expFn : ℚ → ℚ)
    (integrator : IntegratorState P M → ℚ → IntegratorState P M)
    (kinetic_energy : M → FVal) (step_size : ℚ)
    (num_integration_steps : ℕ) (divergence_threshold : ℚ)
    (rng_key : K) (state : HMCState P) : HMCState P × HMCInfo P M :=
  let keys := split rng_key
  let momentum := momentum_generator keys.1 state.position
  let r := hmc_proposal expFn integrator kinetic_energy step_size
    num_integration_steps divergence_threshold (uniform keys.2)
    ⟨state.position, momentum, state.potential_energy,
      state.potential_energy_gradient⟩
  (⟨r.1.position, r.1.potential_energy, r.1.potential_energy_gradient⟩, r.2)

/-- Coupled chain state, from the spec's data model for the coupled
kernel: the two chain states and the coalescence flag. -/
structure CoupledState (P : Type) where
  state_1 : HMCState P
  state_2 : HMCState P
  is_coupled : Bool

/-- Modelled from the spec: the transition of `cosim.coupled.hmc.kernel`
(module not under src/).  If the chains have already coupled, apply the
ordinary HMC transition once and copy the result into both states.
Otherwise run the transition for both states with the same random key
(so both receive the same momentum draw and the same acceptance draw),
then set the coalescence flag iff the two new positions are exactly
equal. -/
def coupled_kernel {P M K : Type} [DecidableEq P]
    (step : K → HMCState P → HMCState P × HMCInfo P M)
    (rng_key : K) (cs : CoupledState P) : CoupledState P :=
  if cs.is_coupled then
    let s := (step rng_key cs.state_1).1
    ⟨s, s, true⟩
  else
    let s1 := (step rng_key cs.state_1).1
    let s2 := (step rng_key cs.state_2).1
    ⟨s1, s2, decide (s1.position = s2.position)⟩

/-- Modelled from the spec: the inference loop of the tests
(src/tests/utils.py, not under src/).  Feeds each key of the stream to
the transition in turn and collects the successive states. -/
def run_chain {K S I : Type} (step : K → S → S × I) :
    List K → S → List S
  | [], _ => []
  | k :: ks, s =>
    let s2 := (step k s).1
    s2 :: run_chain step ks s2

/-- Modelled from the spec: the inference loop of the tests applied to
the coupled kernel, collecting the successive coupled states. -/
def run_coupled {P M K : Type} [DecidableEq P]
    (step : K → HMCState P → HMCState P × HMCInfo P M) :
    List K → CoupledState P → List (CoupledState P)
  | [], _ => []
  | k :: ks, cs =>
    let cs2 := coupled_kernel step k cs
    cs2 :: run_coupled step ks cs2

/-- Concrete integrator state over rational positions and momenta, used
by the concrete instantiations below. -/
def qIntegratorState : IntegratorState ℚ ℚ := ⟨0, 0, FVal.fin 0, 0⟩

/-- Concrete chain state over rational positions, used by the concrete
instantiations below. -/
def qHMCState : HMCState ℚ := ⟨0, FVal.fin 0, 0⟩

/-- Concrete diagnostic record, used by the concrete instantiations
below. -/
def qHMCInfo : HMCInfo ℚ ℚ :=
  ⟨0, 0, false, false, FVal.fin 0, ⟨qIntegratorState, FVal.fin 0, FVal.fin 0⟩, 0⟩

/-- Claim C1: in every HMC transition, after the trajectory is built and
before the energies are compared and the acceptance sampler is run, the
momentum of the trajectory endpoint is negated: the proposal recorded by
the transition is built on the momentum-flipped endpoint state, and its
energy is computed on that flipped endpoint. -/
theorem C1_proposal_on_flipped_endpoint {P M : Type} [Neg M]
    (rng_key : ℚ) (state : IntegratorState P M)
    (build_trajectory : IntegratorState P M → IntegratorState P M)
    (kinetic_energy : M → FVal) (divergence_threshold : ℚ)
    (sample_proposal :
      ℚ → Proposal P M → Proposal P M → SampledProposal P M × Bool × ℚ)
    (n : ℕ) :
    ((generate rng_key state build_trajectory (init_proposal kinetic_energy)
        (generate_proposal kinetic_energy divergence_threshold)
        sample_proposal n).2.proposal.state
      = flip_momentum (build_trajectory state))
    ∧ ((generate rng_key state build_trajectory (init_proposal kinetic_energy)
        (generate_proposal kinetic_energy divergence_threshold)
        sample_proposal n).2.proposal.energy
      = fadd (flip_momentum (build_trajectory state)).potential_energy
          (kinetic_energy (flip_momentum (build_trajectory state)).momentum)) :=
  ⟨rfl, rfl⟩

/-- Claim C2: the acceptance probability returned by
`static_binomial_sampling` is `acceptance_prob`; for finite energies it
equals `min 1 (exp (initial_energy - new_energy))` and lies in `[0, 1]`
whenever the exponential is non-negative; and it equals 0 whenever the
new proposal's energy is infinite or NaN. -/
theorem C2_acceptance_probability {P M : Type}
    (expFn : ℚ → ℚ) (hpos : ∀ x, 0 ≤ expFn x)
    (rng_key : ℚ) (initial_proposal new_proposal : Proposal P M) :
    ((static_binomial_sampling expFn rng_key initial_proposal
        new_proposal).2.2
      = acceptance_prob expFn initial_proposal.energy new_proposal.energy)
    ∧ (∀ a b : ℚ, initial_proposal.energy = FVal.fin a →
        new_proposal.energy = FVal.fin b →
        acceptance_prob expFn initial_proposal.energy new_proposal.energy
          = min 1 (expFn (a - b))
        ∧ 0 ≤ acceptance_prob expFn initial_proposal.energy
            new_proposal.energy
        ∧ acceptance_prob expFn initial_proposal.energy new_proposal.energy
            ≤ 1)
    ∧ (new_proposal.energy.isFinite = false →
        acceptance_prob expFn initial_proposal.energy new_proposal.energy
          = 0) := by
  refine ⟨?_, ?_, ?_⟩
  · unfold static_binomial_sampling
    dsimp only
    split <;> rfl
  · intro a b ha hb
    have h1 : acceptance_prob expFn initial_proposal.energy
        new_proposal.energy = min 1 (expFn (a - b)) := by
      rw [ha, hb]
      simp [acceptance_prob, fsub, fadd, fneg, FVal.isFinite,
        sub_eq_add_neg]
    refine ⟨h1, ?_, ?_⟩
    · rw [h1]
      exact le_min (by norm_num) (hpos _)
    · rw [h1]
      exact min_le_left _ _
  · intro hb
    unfold acceptance_prob
    rw [hb]
    simp

/-- Witness for claim C2 at concrete inputs: with a constant unit
exponential and both energies 0 the acceptance probability is 1, and
with a NaN new energy it is 0. -/
theorem C2_acceptance_probability_witness :
    acceptance_prob (fun _ => (1 : ℚ)) (FVal.fin 0) (FVal.fin 0) = 1
    ∧ acceptance_prob (fun _ => (1 : ℚ)) (FVal.fin 0) FVal.nan = 0 := by
  have h1 := (C2_acceptance_probability (fun _ => (1 : ℚ))
    (fun _ => zero_le_one) 0
    (⟨qIntegratorState, FVal.fin 0, FVal.fin 0⟩ : Proposal ℚ ℚ)
    (⟨qIntegratorState, FVal.fin 0, FVal.fin 0⟩ : Proposal ℚ ℚ)).2.1
    0 0 rfl rfl
  have h2 := (C2_acceptance_probability (fun _ => (1 : ℚ))
    (fun _ => zero_le_one) 0
    (⟨qIntegratorState, FVal.fin 0, FVal.fin 0⟩ : Proposal ℚ ℚ)
    (⟨qIntegratorState, FVal.nan, FVal.fin 0⟩ : Proposal ℚ ℚ)).2.2 rfl
  constructor
  · rw [h1.1]
    norm_num
  · exact h2

/-- Claim C8: the `HMCInfo` record consists of exactly the seven fields
momentum, acceptance probability, acceptance flag, divergence flag,
energy of the proposal, the proposal, and the number of integration
steps; and `generate` populates the momentum, the energy and the step
count fields accordingly. -/
theorem C8_hmcinfo_fields {P M : Type} [Neg M] :
    (∀ r : HMCInfo P M,
      r = HMCInfo.mk r.momentum r.acceptance_probability r.is_accepted
        r.is_divergent r.energy r.proposal r.num_integration_steps)
    ∧ (∀ (rng_key : ℚ) (state : IntegratorState P M)
        (build_trajectory : IntegratorState P M → IntegratorState P M)
        (ip : IntegratorState P M → Proposal P M)
        (gp : FVal → IntegratorState P M → Proposal P M × Bool)
        (sp : ℚ → Proposal P M → Proposal P M →
          SampledProposal P M × Bool × ℚ)
        (n : ℕ),
        ((generate rng_key state build_trajectory ip gp sp n).2).momentum
            = state.momentum
        ∧ ((generate rng_key state build_trajectory ip gp sp n).2).energy
            = ((generate rng_key state build_trajectory ip gp sp
                n).2).proposal.energy
        ∧ ((generate rng_key state build_trajectory ip gp sp
            n).2).num_integration_steps = n) :=
  ⟨fun _ => rfl, fun _ _ _ _ _ _ _ => ⟨rfl, rfl, rfl⟩⟩

/-- Claim C10: the `momentum` field of the `HMCInfo` record equals the
momentum of the initial integrator state passed into `generate` — the
freshly sampled momentum drawn by the kernel before integration — not
the endpoint's or the flipped momentum. -/
theorem C10_info_momentum_is_initial {P M K : Type} [Neg M]
    (rng_key : ℚ) (state : IntegratorState P M)
    (build_trajectory : IntegratorState P M → IntegratorState P M)
    (ip : IntegratorState P M → Proposal P M)
    (gp : FVal → IntegratorState P M → Proposal P M × Bool)
    (sp : ℚ → Proposal P M → Proposal P M →
      SampledProposal P M × Bool × ℚ)
    (n : ℕ)
    (split : K → K × K) (uniform : K → ℚ)
    (momentum_generator : K → P → M) (expFn : ℚ → ℚ)
    (integrator : IntegratorState P M → ℚ → IntegratorState P M)
    (kinetic_energy : M → FVal) (step_size divergence_threshold : ℚ)
    (k : K) (s : HMCState P) :
    ((generate rng_key state build_trajectory ip gp sp n).2).momentum
      = state.momentum
    ∧ ((hmc_kernel split uniform momentum_generator expFn integrator
        kinetic_energy step_size n divergence_threshold k s).2).momentum
      = momentum_generator (split k).1 s.position :=
  ⟨rfl, rfl⟩

/-- Claim C3: every HMC transition returns a valid state: when the
uniform draw in `[0,1)` is below the acceptance probability the returned
state is the new proposal's state (the momentum-flipped trajectory
endpoint), otherwise it is the original state unchanged, and acceptance
holds exactly when the draw is below the acceptance probability. -/
theorem C3_accept_reject_dichotomy {P M : Type} [Neg M]
    (expFn : ℚ → ℚ)
    (integrator : IntegratorState P M → ℚ → IntegratorState P M)
    (kinetic_energy : M → FVal) (step_size : ℚ) (n : ℕ)
    (divergence_threshold : ℚ) (rng_key : ℚ)
    (h0 : 0 ≤ rng_key) (h1 : rng_key < 1)
    (state : IntegratorState P M)
    (r : IntegratorState P M × HMCInfo P M)
    (hr : r = hmc_proposal expFn integrator kinetic_energy step_size n
      divergence_threshold rng_key state) :
    (r.2.is_accepted = true →
      r.1 = flip_momentum (static_integration integrator step_size n state))
    ∧ (r.2.is_accepted = false → r.1 = state)
    ∧ (r.2.is_accepted = true ↔
        rng_key < r.2.acceptance_probability) := by
  subst hr
  unfold hmc_proposal generate static_binomial_sampling
  dsimp only
  split
  case isTrue h =>
    refine ⟨fun _ => rfl, fun hc => absurd hc (by simp), ?_⟩
    simpa using h
  case isFalse h =>
    refine ⟨fun hc => absurd hc (by simp), fun _ => rfl, ?_⟩
    simpa using h

/-- Witness for claim C3 at concrete inputs: with equal energies the
acceptance probability is 1, the zero draw accepts, and the returned
state is the momentum-flipped trajectory endpoint. -/
theorem C3_accept_reject_dichotomy_witness :
    (hmc_proposal (fun _ => (1 : ℚ)) (fun s _ => s) (fun _ => FVal.fin 0)
        1 1 1000 0 qIntegratorState).1
      = flip_momentum (static_integration (fun s _ => s) 1 1
          qIntegratorState) := by
  exact (C3_accept_reject_dichotomy (fun _ => (1 : ℚ)) (fun s _ => s)
    (fun _ => FVal.fin 0) 1 1 1000 0 (le_refl 0) (by norm_num)
    qIntegratorState _ rfl).1 (by decide)

/-- Claim C9: the `proposal` and `energy` fields of the diagnostic
record always describe the new trajectory-endpoint proposal (with its
momentum already flipped), whether or not it was accepted; in
particular, on rejection the diagnostic still carries the rejected
proposal while the returned state is the original one. -/
theorem C9_diagnostic_describes_endpoint {P M : Type} [Neg M]
    (expFn : ℚ → ℚ)
    (integrator : IntegratorState P M → ℚ → IntegratorState P M)
    (kinetic_energy : M → FVal) (step_size : ℚ) (n : ℕ)
    (divergence_threshold : ℚ) (rng_key : ℚ)
    (state : IntegratorState P M)
    (r : IntegratorState P M × HMCInfo P M)
    (hr : r = hmc_proposal expFn integrator kinetic_energy step_size n
      divergence_threshold rng_key state) :
    (r.2.proposal
      = (generate_proposal kinetic_energy divergence_threshold
          (init_proposal kinetic_energy state).energy
          (flip_momentum (static_integration integrator step_size n
            state))).1)
    ∧ (r.2.proposal.state
      = flip_momentum (static_integration integrator step_size n state))
    ∧ (r.2.energy = r.2.proposal.energy)
    ∧ (r.2.is_accepted = false → r.1 = state) := by
  subst hr
  refine ⟨rfl, rfl, rfl, ?_⟩
  unfold hmc_proposal generate static_binomial_sampling
  dsimp only
  split
  · intro hc
    exact absurd hc (by simp)
  · intro _
    rfl

/-- Witness for claim C9 at concrete inputs: with a NaN endpoint energy
the acceptance probability is 0, the proposal is rejected, and the
returned state is the original one while the diagnostic keeps the
rejected proposal. -/
theorem C9_diagnostic_describes_endpoint_witness :
    (hmc_proposal (fun _ => (1 : ℚ))
        (fun s _ => ⟨s.position, s.momentum, FVal.nan,
          s.potential_energy_gradient⟩)
        (fun _ => FVal.fin 0) 1 1 1000 0 qIntegratorState).1
      = qIntegratorState := by
  exact (C9_diagnostic_describes_endpoint (fun _ => (1 : ℚ))
    (fun s _ => ⟨s.position, s.momentum, FVal.nan,
      s.potential_energy_gradient⟩)
    (fun _ => FVal.fin 0) 1 1 1000 0 qIntegratorState _ rfl).2.2.2
    (by decide)

/-- Helper: a finite extended subtraction forces both operands to be
finite, and the payload is the difference. -/
theorem fsub_eq_fin {a b : FVal} {z : ℚ} (h : fsub a b = FVal.fin z) :
    ∃ x y : ℚ, a = FVal.fin x ∧ b = FVal.fin y ∧ z = x - y := by
  cases a <;> cases b <;>
    simp only [fsub, fadd, fneg] at h
  case fin.fin x y =>
    injection h with hz
    exact ⟨x, y, rfl, rfl, by rw [← hz]; ring⟩
  all_goals exact FVal.noConfusion h

/-- Counterexample for claim C4: when the initial state's potential
energy is infinite and the trajectory endpoint has finite energy, the
transition is flagged divergent, yet the acceptance probability is 1 and
the divergent proposal is accepted, not rejected. -/
theorem C4_counterexample :
    ((hmc_proposal (fun _ => (1 : ℚ))
        (fun s _ => ⟨s.position, s.momentum, FVal.fin 0,
          s.potential_energy_gradient⟩)
        (fun _ => FVal.fin 0) 1 1 1000 0
        (⟨0, 0, FVal.inf, 0⟩ : IntegratorState ℚ ℚ)).2.is_divergent
      = true)
    ∧ ((hmc_proposal (fun _ => (1 : ℚ))
        (fun s _ => ⟨s.position, s.momentum, FVal.fin 0,
          s.potential_energy_gradient⟩)
        (fun _ => FVal.fin 0) 1 1 1000 0
        (⟨0, 0, FVal.inf, 0⟩ : IntegratorState ℚ ℚ)).2.acceptance_probability
      = 1)
    ∧ ((hmc_proposal (fun _ => (1 : ℚ))
        (fun s _ => ⟨s.position, s.momentum, FVal.fin 0,
          s.potential_energy_gradient⟩)
        (fun _ => FVal.fin 0) 1 1 1000 0
        (⟨0, 0, FVal.inf, 0⟩ : IntegratorState ℚ ℚ)).2.is_accepted
      = true) := by
  refine ⟨rfl, rfl, by decide⟩

/-- Claim C4 (amended): divergence never raises; it is reported through
the `is_divergent` flag of the returned `HMCInfo`, which equals the
divergence test on the recorded energies.  Whenever the proposal's
energy is non-finite the acceptance probability is 0 and the proposal is
rejected.  When the energy difference is finite and exceeds the
threshold, the acceptance probability is at most the exponential of the
negated threshold (forced toward 0), though not necessarily 0. -/
theorem C4_divergence_reported_not_raised {P M : Type} [Neg M]
    (expFn : ℚ → ℚ) (hmono : ∀ x y : ℚ, x ≤ y → expFn x ≤ expFn y)
    (integrator : IntegratorState P M → ℚ → IntegratorState P M)
    (kinetic_energy : M → FVal) (step_size : ℚ) (n : ℕ)
    (divergence_threshold : ℚ) (rng_key : ℚ) (h0 : 0 ≤ rng_key)
    (state : IntegratorState P M)
    (r : IntegratorState P M × HMCInfo P M)
    (hr : r = hmc_proposal expFn integrator kinetic_energy step_size n
      divergence_threshold rng_key state) :
    (r.2.is_divergent
      = is_diverging divergence_threshold
          (fsub r.2.energy (init_proposal kinetic_energy state).energy))
    ∧ (r.2.energy.isFinite = false →
        r.2.acceptance_probability = 0 ∧ r.2.is_accepted = false
        ∧ r.1 = state)
    ∧ (∀ d : ℚ,
        fsub r.2.energy (init_proposal kinetic_energy state).energy
          = FVal.fin d →
        divergence_threshold < d →
        r.2.acceptance_probability ≤ expFn (-divergence_threshold)) := by
  subst hr
  refine ⟨rfl, ?_, ?_⟩
  · intro hfin
    unfold hmc_proposal generate static_binomial_sampling
    dsimp only
    unfold hmc_proposal generate at hfin
    dsimp only at hfin
    have hp : acceptance_prob expFn
        (init_proposal kinetic_energy state).energy
        ((generate_proposal kinetic_energy divergence_threshold
          (init_proposal kinetic_energy state).energy
          (flip_momentum (static_integration integrator step_size n
            state))).1).energy = 0 := by
      unfold acceptance_prob
      rw [hfin]
      simp
    rw [hp]
    rw [if_neg (not_lt.mpr h0)]
    exact ⟨rfl, rfl, rfl⟩
  · intro d hd hthr
    unfold hmc_proposal generate at hd ⊢
    dsimp only at hd ⊢
    obtain ⟨x, y, hx, hy, hz⟩ := fsub_eq_fin hd
    have hp : acceptance_prob expFn
        (init_proposal kinetic_energy state).energy
        ((generate_proposal kinetic_energy divergence_threshold
          (init_proposal kinetic_energy state).energy
          (flip_momentum (static_integration integrator step_size n
            state))).1).energy = min 1 (expFn (y - x)) := by
      rw [hx, hy]
      unfold acceptance_prob
      simp only [FVal.isFinite, fsub, fadd, fneg, if_true]
      rw [sub_eq_add_neg]
    have hle : expFn (y - x) ≤ expFn (-divergence_threshold) := by
      apply hmono
      have : divergence_threshold < x - y := hz ▸ hthr
      linarith
    unfold static_binomial_sampling
    dsimp only
    rw [hp]
    split
    · exact le_trans (min_le_right _ _) hle
    · exact le_trans (min_le_right _ _) hle

/-- Witness for the amended claim C4 at concrete inputs: a NaN endpoint
energy is flagged by a zero acceptance probability, the proposal is
rejected, and the original state is returned. -/
theorem C4_divergence_reported_not_raised_witness :
    ((hmc_proposal (fun _ => (1 : ℚ))
        (fun s _ => ⟨s.position, s.momentum, FVal.nan,
          s.potential_energy_gradient⟩)
        (fun _ => FVal.fin 0) 1 1 1000 0
        qIntegratorState).2.acceptance_probability = 0)
    ∧ ((hmc_proposal (fun _ => (1 : ℚ))
        (fun s _ => ⟨s.position, s.momentum, FVal.nan,
          s.potential_energy_gradient⟩)
        (fun _ => FVal.fin 0) 1 1 1000 0
        qIntegratorState).2.is_accepted = false)
    ∧ ((hmc_proposal (fun _ => (1 : ℚ))
        (fun s _ => ⟨s.position, s.momentum, FVal.nan,
          s.potential_energy_gradient⟩)
        (fun _ => FVal.fin 0) 1 1 1000 0
        qIntegratorState).1 = qIntegratorState) := by
  exact (C4_divergence_reported_not_raised (fun _ => (1 : ℚ))
    (fun _ _ _ => le_refl 1)
    (fun s _ => ⟨s.position, s.momentum, FVal.nan,
      s.potential_energy_gradient⟩)
    (fun _ => FVal.fin 0) 1 1 1000 0 (le_refl 0)
    qIntegratorState _ rfl).2.1 rfl

/-- Claim C5: the HMC transition is referentially transparent — for the
same static configuration, two calls with the same random key and the
same state yield identical outputs (new state and `HMCInfo`).  In this
embedding the transition is a pure function of its inputs, so equal
inputs give equal outputs. -/
theorem C5_determinism {P M K : Type} [Neg M]
    (split : K → K × K) (uniform : K → ℚ)
    (momentum_generator : K → P → M) (expFn : ℚ → ℚ)
    (integrator : IntegratorState P M → ℚ → IntegratorState P M)
    (kinetic_energy : M → FVal) (step_size : ℚ) (n : ℕ)
    (divergence_threshold : ℚ)
    (k k2 : K) (s s2 : HMCState P) (hk : k = k2) (hs : s = s2) :
    hmc_kernel split uniform momentum_generator expFn integrator
        kinetic_energy step_size n divergence_threshold k s
      = hmc_kernel split uniform momentum_generator expFn integrator
        kinetic_energy step_size n divergence_threshold k2 s2 := by
  rw [hk, hs]

/-- Witness for claim C5 at concrete inputs: repeating the transition
with the same key and state reproduces the same output. -/
theorem C5_determinism_witness :
    hmc_kernel (fun k => (k, k)) (fun _ => 0) (fun _ _ => 0)
        (fun _ => (1 : ℚ)) (fun s _ => s) (fun _ => FVal.fin 0) 1 1 1000
        (0 : ℚ) qHMCState
      = hmc_kernel (fun k => (k, k)) (fun _ => 0) (fun _ _ => 0)
        (fun _ => (1 : ℚ)) (fun s _ => s) (fun _ => FVal.fin 0) 1 1 1000
        (0 : ℚ) qHMCState := by
  exact C5_determinism (fun k => (k, k)) (fun _ => 0) (fun _ _ => 0)
    (fun _ => (1 : ℚ)) (fun s _ => s) (fun _ => FVal.fin 0) 1 1 1000
    0 0 qHMCState qHMCState rfl rfl

/-- Helper: the first chain of a coupled transition evolves exactly by
the underlying transition, whether or not the chains have coupled. -/
theorem coupled_kernel_state_1 {P M K : Type} [DecidableEq P]
    (step : K → HMCState P → HMCState P × HMCInfo P M)
    (k : K) (cs : CoupledState P) :
    (coupled_kernel step k cs).state_1 = (step k cs.state_1).1 := by
  unfold coupled_kernel
  split <;> rfl

/-- Helper: collecting the first-chain components of the coupled run
gives exactly the run of the underlying transition started from the
first chain's state. -/
theorem run_coupled_map_state_1 {P M K : Type} [DecidableEq P]
    (step : K → HMCState P → HMCState P × HMCInfo P M)
    (keys : List K) :
    ∀ cs : CoupledState P,
      (run_coupled step keys cs).map CoupledState.state_1
        = run_chain step keys cs.state_1 := by
  induction keys with
  | nil => intro cs; rfl
  | cons k ks ih =>
    intro cs
    simp only [run_coupled, run_chain, List.map_cons]
    rw [coupled_kernel_state_1, ih]
    rw [coupled_kernel_state_1]

/-- Claim C6: with the same potential machinery (integrator, kinetic
energy, step size, number of integration steps, threshold), the same key
stream, and the same initial state for chain 1, the first-chain states
produced by the coupled kernel coincide sample for sample with the plain
kernel's trajectory. -/
theorem C6_coupling_equivalence {P M K : Type} [Neg M] [DecidableEq P]
    (split : K → K × K) (uniform : K → ℚ)
    (momentum_generator : K → P → M) (expFn : ℚ → ℚ)
    (integrator : IntegratorState P M → ℚ → IntegratorState P M)
    (kinetic_energy : M → FVal) (step_size : ℚ) (n : ℕ)
    (divergence_threshold : ℚ)
    (keys : List K) (cs : CoupledState P) :
    (run_coupled (hmc_kernel split uniform momentum_generator expFn
        integrator kinetic_energy step_size n divergence_threshold)
        keys cs).map CoupledState.state_1
      = run_chain (hmc_kernel split uniform momentum_generator expFn
          integrator kinetic_energy step_size n divergence_threshold)
          keys cs.state_1 :=
  run_coupled_map_state_1 _ keys cs

/-- Claim C7: the coalescence flag is absorbing — once `is_coupled` is
true, every subsequent coupled state has the flag true and its two chain
states equal; and the flag becomes true as soon as a transition makes
the two chain states identical. -/
theorem C7_is_coupled_absorbing {P M K : Type} [DecidableEq P]
    (step : K → HMCState P → HMCState P × HMCInfo P M) :
    (∀ (keys : List K) (cs : CoupledState P), cs.is_coupled = true →
      ∀ x ∈ run_coupled step keys cs,
        x.is_coupled = true ∧ x.state_1 = x.state_2)
    ∧ (∀ (k : K) (cs : CoupledState P),
        (step k cs.state_1).1 = (step k cs.state_2).1 →
        (coupled_kernel step k cs).is_coupled = true) := by
  constructor
  · intro keys
    induction keys with
    | nil =>
      intro cs hcs x hx
      simp [run_coupled] at hx
    | cons k ks ih =>
      intro cs hcs x hx
      have hck : coupled_kernel step k cs
          = ⟨(step k cs.state_1).1, (step k cs.state_1).1, true⟩ := by
        unfold coupled_kernel
        rw [if_pos hcs]
      simp only [run_coupled, List.mem_cons] at hx
      rcases hx with hx | hx
      · rw [hx, hck]
        exact ⟨rfl, rfl⟩
      · exact ih (coupled_kernel step k cs) (by rw [hck]) x hx
  · intro k cs h
    unfold coupled_kernel
    by_cases hc : cs.is_coupled = true
    · rw [if_pos hc]
    · rw [if_neg hc]
      simp [h]

/-- Witness for claim C7 at concrete inputs: a transition that leaves
both equal states unchanged sets the coalescence flag, and from a
coupled state the subsequent states stay coupled and equal. -/
theorem C7_is_coupled_absorbing_witness :
    ((coupled_kernel (fun (_ : ℚ) (s : HMCState ℚ) => (s, qHMCInfo)) 0
        ⟨qHMCState, qHMCState, false⟩).is_coupled = true)
    ∧ ((coupled_kernel (fun (_ : ℚ) (s : HMCState ℚ) => (s, qHMCInfo)) 0
        ⟨qHMCState, qHMCState, true⟩).is_coupled = true
      ∧ (coupled_kernel (fun (_ : ℚ) (s : HMCState ℚ) => (s, qHMCInfo)) 0
        ⟨qHMCState, qHMCState, true⟩).state_1
        = (coupled_kernel (fun (_ : ℚ) (s : HMCState ℚ) => (s, qHMCInfo))
            0 ⟨qHMCState, qHMCState, true⟩).state_2) := by
  constructor
  · exact (C7_is_coupled_absorbing
      (fun (_ : ℚ) (s : HMCState ℚ) => (s, qHMCInfo))).2 0
      ⟨qHMCState, qHMCState, false⟩ rfl
  · exact (C7_is_coupled_absorbing
      (fun (_ : ℚ) (s : HMCState ℚ) => (s, qHMCInfo))).1 [0]
      ⟨qHMCState, qHMCState, true⟩ rfl
      (coupled_kernel (fun (_ : ℚ) (s : HMCState ℚ) => (s, qHMCInfo)) 0
        ⟨qHMCState, qHMCState, true⟩)
      (by simp [run_coupled])
